import Mathlib

/-!
Verification of the fusion regression-test harness
(`src/main/python/run_pfusion_regression.py`).

The harness is embedded shallowly: Python floats are modelled by exact
rationals (`ℚ`), Python strings by `String` with character-list
implementations of the string operations used by the script, the yaml
configuration by a record type, and the two external process boundaries
(`subprocess.call` for fusion commands, `Popen`-based `check_output` for
evaluation commands) by an environment record that maps a rendered command
line to its observed outcome.  Uncaught Python exceptions are modelled by
explicit error results.
-/

/-! ## Rational helpers

Kernel-friendly implementations of the arithmetic used by the script,
working on the `num`/`den` fields directly.  Bridge lemmas relating them to
the standard `ℚ` operations are proved below. -/

/-- Boolean `a ≤ b` on `ℚ` by cross multiplication. -/
def qle (a b : ℚ) : Bool := decide (a.num * (b.den : ℤ) ≤ b.num * (a.den : ℤ))

/-- Boolean `a < b` on `ℚ` by cross multiplication. -/
def qlt (a b : ℚ) : Bool := decide (a.num * (b.den : ℤ) < b.num * (a.den : ℤ))

/-- Subtraction on `ℚ` via `mkRat`. -/
def qsub (a b : ℚ) : ℚ := mkRat (a.num * (b.den : ℤ) - b.num * (a.den : ℤ)) (a.den * b.den)

/-- Multiplication on `ℚ` via `mkRat`. -/
def qmul (a b : ℚ) : ℚ := mkRat (a.num * b.num) (a.den * b.den)

/-- Absolute value on `ℚ`. -/
def qabs (a : ℚ) : ℚ := if a.num < 0 then mkRat (-a.num) a.den else a

/-- Maximum of two rationals. -/
def qmax (a b : ℚ) : ℚ := if qle a b then b else a

/-- `10 ^ p` as a rational, for a (possibly negative) integer exponent. -/
def pow10 (p : Int) : ℚ :=
  if 0 ≤ p then mkRat ((10 : ℕ) ^ p.toNat : ℕ) 1 else mkRat 1 ((10 : ℕ) ^ (-p).toNat)

/-- Division of a rational by a power of ten. -/
def qdivPow10 (a : ℚ) (p : Int) : ℚ :=
  if 0 ≤ p then mkRat a.num (a.den * (10 : ℕ) ^ p.toNat)
  else mkRat (a.num * ((10 : ℕ) ^ (-p).toNat : ℕ)) a.den

/-- Floor of a rational as an integer (`q.num / q.den` with integer division,
matching `Rat.floor_def`). -/
def floorQ (q : ℚ) : Int := q.num / (q.den : ℤ)

/-- Round a rational to the nearest integer, ties to even: the semantics of
Python's builtin `round` on floats (modulo the exact-rational embedding of
binary floats). -/
def roundHalfEven (x : ℚ) : Int :=
  let n := floorQ x
  let r := qsub x (mkRat n 1)
  if qlt r (mkRat 1 2) then n
  else if qlt (mkRat 1 2) r then n + 1
  else if n % 2 = 0 then n else n + 1

/-- `round(x, p)`: Python's two-argument round on our rational embedding of
floats. -/
def pyRound (x : ℚ) (p : Int) : ℚ := qdivPow10 (mkRat (roundHalfEven (qmul x (pow10 p))) 1) p

/-! ## String helpers

The script uses `str.strip`, `str.split(sep)`, `' '.join`, `float(...)` and
`str(...)`.  They are implemented structurally on the character lists so
that concrete runs reduce inside the kernel.  Python semantics are followed:
`split` with a non-empty separator keeps empty fields, `strip` removes ASCII
whitespace from both ends. -/

/-- Characters removed by Python's `str.strip()`. -/
def isSpaceChar (c : Char) : Bool :=
  c = ' ' || c = '\t' || c = '\n' || c = '\x0d' || c = '\x0b' || c = '\x0c'

/-- `str.strip()` on a character list. -/
def stripList (l : List Char) : List Char :=
  ((l.dropWhile isSpaceChar).reverse.dropWhile isSpaceChar).reverse

/-- `str.strip()`. -/
def pyStrip (s : String) : String := ⟨stripList s.data⟩

/-- Does `sep` occur at the head of `l`? -/
def matchesAt : List Char → List Char → Bool
  | [], _ => true
  | _ :: _, [] => false
  | c :: cs, d :: ds => c = d && matchesAt cs ds

/-- Fuelled worker for `str.split(sep)`: scans `l`, cutting at each
occurrence of the non-empty separator `sep`.  `fuel` bounds the number of
examined characters; callers pass `l.length + 1`, which is always enough. -/
def splitFuel (sep : List Char) : Nat → List Char → List Char → List (List Char)
  | 0, l, acc => [acc.reverse ++ l]
  | _ + 1, [], acc => [acc.reverse]
  | fuel + 1, c :: rest, acc =>
    if matchesAt sep (c :: rest) then
      acc.reverse :: splitFuel sep fuel ((c :: rest).drop sep.length) []
    else
      splitFuel sep fuel rest (c :: acc)

/-- `s.split(sep)` for a non-empty separator `sep`, Python semantics. -/
def pySplit (s sep : String) : List String :=
  (splitFuel sep.data (s.data.length + 1) s.data []).map fun l => ⟨l⟩

/-- Is the string non-blank, i.e. does Python's `line.strip()` yield a truthy
value? -/
def nonBlank (s : String) : Bool := stripList s.data ≠ []

/-- Digit list to a natural number (most significant first); `none` if a
non-digit appears. -/
def digitsVal : List Char → Option Nat
  | [] => some 0
  | c :: cs =>
    if c.isDigit then
      (digitsVal cs).map fun v => v + (c.toNat - '0'.toNat) * 10 ^ cs.length
    else none

/-- `float(s)` restricted to plain decimal numerals with optional sign and
fractional part, the only forms the evaluator emits; any other input is
`none`, standing for Python's `ValueError`.  (Exponent notation, `inf` and
`nan` are outside the modelled fragment.) -/
def parseFloat (s : String) : Option ℚ :=
  let t := stripList s.data
  let (sgn, t) : Int × List Char :=
    match t with
    | '-' :: rest => (-1, rest)
    | '+' :: rest => (1, rest)
    | _ => (1, t)
  let intPart := t.takeWhile Char.isDigit
  let rest := t.drop intPart.length
  match rest with
  | [] =>
    if intPart = [] then none
    else (digitsVal intPart).map fun v => mkRat (sgn * v) 1
  | '.' :: fracPart =>
    if intPart = [] ∧ fracPart = [] then none
    else if fracPart.all Char.isDigit then
      match digitsVal intPart, digitsVal fracPart with
      | some i, some f =>
        some (mkRat (sgn * (i * 10 ^ fracPart.length + f)) (10 ^ fracPart.length))
      | _, _ => none
    else none
  | _ => none

/-- Left-pad a string with zeros to the given length. -/
def padZeros (s : String) (len : Nat) : String :=
  ⟨List.replicate (len - s.data.length) '0' ++ s.data⟩

/-- `str(x)` for a float `x` embedded as a rational: renders the exact short
decimal form when the denominator divides a power of ten (the case for every
value the configurations carry), Python-style with a forced decimal point. -/
def decStr (q : ℚ) : String :=
  let sgn := if q.num < 0 then "-" else ""
  match (List.range 64).find? (fun e => q.den ∣ 10 ^ e) with
  | some e =>
    let m := q.num.natAbs * ((10 : ℕ) ^ e / q.den)
    if e = 0 then sgn ++ toString m ++ ".0"
    else sgn ++ toString (m / 10 ^ e) ++ "." ++ padZeros (toString (m % 10 ^ e)) e
  | none => sgn ++ toString q.num.natAbs ++ "/" ++ toString q.den

/-- `str(x)` for an optional string: Python's `str(None)` is `"None"`. -/
def pyStr : Option String → String
  | some s => s
  | none => "None"

/-- Python sequence indexing `l[i]`, with negative indices counting from the
end; `none` models an `IndexError`. -/
def pyIndex {α : Type} (l : List α) (i : Int) : Option α :=
  if 0 ≤ i then l.get? i.toNat
  else if i.natAbs ≤ l.length then l.get? (l.length - i.natAbs) else none

/-- Does the path start with a separator?  (`os.path.join(base, q)` discards
`base` when `q` is absolute.) -/
def isAbsPath (s : String) : Bool :=
  match s.data with
  | '/' :: _ => true
  | _ => false

/-- Dictionary lookup on an association list (`d[k]`); `none` models a
`KeyError`. -/
def lookupStr {α : Type} : List (String × α) → String → Option α
  | [], _ => none
  | (k, v) :: rest, key => if k = key then some v else lookupStr rest key

/-! ## Configuration data model

The yaml configuration as the script reads it.  Keys the script accesses
with `dict.get` (so that their absence is silently tolerated) are `Option`
fields; keys accessed with brackets (whose absence raises `KeyError`) are
plain fields.  `results` is the nested mapping
`results[metric_name] -> list of expected scores, one per topic set`. -/

structure RunRef where
  file : String
deriving DecidableEq

structure MethodSpec where
  name : Option String
  output : Option String
  k : Option Int
  depth : Option Int
  rrf_k : Option Int
  alpha : Option ℚ
  results : List (String × List ℚ)
deriving DecidableEq

structure TopicSet where
  id : String
  qrel : Option String
deriving DecidableEq

structure MetricSpec where
  metric : String
  command : String
  params : Option String
  separator : String
  parse_index : Int
  metric_precision : Int
deriving DecidableEq

structure Config where
  runs : List RunRef
  methods : List MethodSpec
  topics : List TopicSet
  metrics : List MetricSpec
deriving DecidableEq

/-! ## Tolerance primitive and pass rule -/

/-- `is_close(a, b, rel_tol=1e-9, abs_tol=0.0)` from the script:
`abs(a - b) <= max(rel_tol * max(abs(a), abs(b)), abs_tol)`. -/
def is_close (a b : ℚ) (rel_tol : ℚ := mkRat 1 1000000000) (abs_tol : ℚ := mkRat 0 1) : Bool :=
  qle (qabs (qsub a b)) (qmax (qmul rel_tol (qmax (qabs a) (qabs b))) abs_tol)

/-- The verdict test at line 224 of the script:
`is_close(expected, actual) or actual > expected`. -/
def passes (expected actual : ℚ) : Bool :=
  is_close expected actual || qlt expected actual

/-! ## Command builder -/

def ANSERINI_FUSE_COMMAND : String := "bin/run.sh io.anserini.fusion.FuseRuns"

def PYSERINI_FUSE_COMMAND : String := "python -m pyserini.fusion"

/-- A command token: a Python string, or Python's `None` (which flows into a
command list when a method has no `output` key). -/
abbrev Tok := Option String

/-- The supported-method list of `construct_fusion_commands`
(line 77: `['rrf', 'average', 'interpolation']`, with `'normalize'`
commented out). -/
def supportedMethodsBuild : List String := ["rrf", "average", "interpolation"]

/-- The supported-method list of `evaluate_and_verify`
(line 186: `['rrf', 'average', 'interpolation', 'normalize']`). -/
def supportedMethodsEval : List String := ["rrf", "average", "interpolation", "normalize"]

/-- The filter `[m for m in yaml_data['methods'] if m.get('name') in supported]`
shared by both phases. -/
def filteredMethods (supported : List String) (y : Config) : List MethodSpec :=
  y.methods.filter fun m =>
    match m.name with
    | some n => supported.contains n
    | none => false

/-- The command-token list built for one method (the loop body of
`construct_fusion_commands`, lines 82-121). -/
def mkFusionCmd (y : Config) (use_pyserini : Bool) (m : MethodSpec) : List Tok :=
  let method_name := m.name.getD "average"
  let run_files := y.runs.map RunRef.file
  let output_file := m.output
  if use_pyserini then
    ([some PYSERINI_FUSE_COMMAND,
      some "--method", some method_name,
      some "--runs"] ++ run_files.map some ++
     [some "--output", output_file,
      some "--runtag", some ("pyserini." ++ method_name),
      some "--k", some (toString (m.k.getD 1000)),
      some "--depth", some (toString (m.depth.getD 1000))]) ++
    (if method_name = "rrf" then
      [some "--rrf.k", some (toString (m.rrf_k.getD 60))]
    else if method_name = "interpolation" then
      [some "--alpha", some (decStr (m.alpha.getD (mkRat 1 2)))]
    else if method_name = "normalize" then
      -- the normalize branch only logs; nothing is appended
      []
    else [])
  else
    [some ANSERINI_FUSE_COMMAND,
     some "-runs", some (String.intercalate " " run_files),
     some "-output", output_file,
     some "-method", some method_name,
     some "-k", some (toString (m.k.getD 1000)),
     some "-depth", some (toString (m.depth.getD 1000)),
     some "-rrf_k", some (toString (m.rrf_k.getD 60)),
     some "-alpha", some (decStr (m.alpha.getD (mkRat 1 2)))]

/-- `construct_fusion_commands(yaml_data, use_pyserini)`. -/
def construct_fusion_commands (y : Config) (use_pyserini : Bool) : List (List Tok) :=
  (filteredMethods supportedMethodsBuild y).map (mkFusionCmd y use_pyserini)

/-- `' '.join(cmd_list)`: `none` models the `TypeError` Python raises when a
`None` token is joined. -/
def joinToks (ts : List Tok) : Option String :=
  if ts.all Option.isSome then some (String.intercalate " " (ts.map fun t => t.getD "")) else none

/-- `run_fusion_commands(cmds)`: joins and spawns each command in order.  The
`try` only guards the `call`, not the join, so a `None` token aborts the
whole run (`.error`); a non-zero exit status of a spawned command is merely
logged.  Returns the command lines actually handed to `call`. -/
def run_fusion_commands : List (List Tok) → Except (List String) (List String)
  | [] => Except.ok []
  | cmd :: rest =>
    match joinToks cmd with
    | none => Except.error []
    | some line =>
      match run_fusion_commands rest with
      | Except.error sp => Except.error (line :: sp)
      | Except.ok sp => Except.ok (line :: sp)

/-! ## Evaluation and verification -/

/-- One pass/fail record (a VerdictRecord): produced at lines 219-231 for a
(method, topic set, metric) triple that was evaluated to completion.
`expected` and `actual` are the rounded scores. -/
structure Verdict where
  method : String
  topicId : String
  metric : String
  expected : ℚ
  actual : ℚ
  ok : Bool
deriving DecidableEq

/-- A (method, topic-index, topic-set, metric) triple, in the iteration
order of `evaluate_and_verify`. -/
abbrev Triple := MethodSpec × Nat × TopicSet × MetricSpec

/-- The triples visited by `evaluate_and_verify`: method-major, then topic
sets with their positional index, then metrics. -/
def triples (y : Config) : List Triple :=
  (filteredMethods supportedMethodsEval y).flatMap fun m =>
    y.topics.enum.flatMap fun it =>
      y.metrics.map fun mt => (m, it.1, it.2, mt)

/-- The evaluation command line for one triple (lines 193-201, joined with
spaces at lines 204/209): evaluator command, params (or `''`), qrels path
prefixed with `tools/topics-and-qrels` (or `''`), and `str(output)`. -/
def renderEval (tr : Triple) : String :=
  let m := tr.1
  let t := tr.2.2.1
  let mt := tr.2.2.2
  let qrelTok : String :=
    match t.qrel with
    | some q => if q = "" then "" else
        if isAbsPath q then q else "tools/topics-and-qrels/" ++ q
    | none => ""
  String.intercalate " "
    [mt.command, (match mt.params with | some p => p | none => ""), qrelTok, pyStr m.output]

/-- What becomes of one evaluated triple. -/
inductive TripleRes
  | skip
  | crash
  | verdict (v : Verdict)
deriving DecidableEq

/-- The per-triple pipeline of `evaluate_and_verify` (lines 207-231), in
execution mode.  `evalOut` maps a command line to `check_output`'s result
(`none` = the invocation raised or exited non-zero).

`.skip` covers the exceptions caught by the `try` at lines 207-214:
invocation failure, or no non-empty output line (`[-1]` on an empty list).
`.crash` covers the uncaught exceptions after the `try`: result-line field
selection out of range (line 216), missing expected score (line 217), or an
unparseable float (line 218). -/
def tripleRes (evalOut : String → Option String) (tr : Triple) : TripleRes :=
  let m := tr.1
  let i := tr.2.1
  let t := tr.2.2.1
  let mt := tr.2.2.2
  match evalOut (renderEval tr) with
  | none => TripleRes.skip
  | some outStr =>
    match ((pySplit outStr "\n").filter nonBlank).getLast? with
    | none => TripleRes.skip
    | some out =>
      if nonBlank out = false then TripleRes.skip
      else
        match pyIndex (pySplit (pyStrip out) mt.separator) mt.parse_index with
        | none => TripleRes.crash
        | some eval_out =>
          match (lookupStr m.results mt.metric).bind fun l => l.get? i with
          | none => TripleRes.crash
          | some expRaw =>
            match parseFloat eval_out with
            | none => TripleRes.crash
            | some actRaw =>
              match m.name with
              | none => TripleRes.crash
              | some nm =>
                let expected := pyRound expRaw mt.metric_precision
                let actual := pyRound actRaw mt.metric_precision
                TripleRes.verdict
                  ⟨nm, t.id, mt.metric, expected, actual, passes expected actual⟩

/-- The mutable state threaded through the verification loop: the `failures`
flag, the verdict records in emission order, and the evaluation command
lines actually executed. -/
structure EvalState where
  failures : Bool
  verdicts : List Verdict
  spawned : List String
deriving DecidableEq

/-- One iteration of the verification loop.  In dry-run mode the command is
only logged (no spawn, no verdict).  Otherwise the command is executed and
the triple's outcome merged into the state; `.error` propagates an uncaught
exception. -/
def stepTriple (evalOut : String → Option String) (dry : Bool) (st : EvalState) (tr : Triple) :
    Except EvalState EvalState :=
  if dry then Except.ok st
  else
    let st1 : EvalState := ⟨st.failures, st.verdicts, st.spawned ++ [renderEval tr]⟩
    match tripleRes evalOut tr with
    | TripleRes.skip => Except.ok st1
    | TripleRes.crash => Except.error st1
    | TripleRes.verdict v =>
      Except.ok ⟨st1.failures || !v.ok, st1.verdicts ++ [v], st1.spawned⟩

/-- The verification loop over a triple list. -/
def runTriples (evalOut : String → Option String) (dry : Bool) :
    EvalState → List Triple → Except EvalState EvalState
  | st, [] => Except.ok st
  | st, tr :: rest =>
    match stepTriple evalOut dry st tr with
    | Except.error st' => Except.error st'
    | Except.ok st' => runTriples evalOut dry st' rest

/-- `evaluate_and_verify(yaml_data, dry_run)` under an evaluation
environment: `.ok` is normal completion (the final `failures` flag decides
the summary line), `.error` an uncaught exception. -/
def evaluate_and_verify (y : Config) (dry : Bool) (evalOut : String → Option String) :
    Except EvalState EvalState :=
  runTriples evalOut dry ⟨false, [], []⟩ (triples y)

/-! ## Main program -/

/-- The world the script runs against: whether the configuration file
exists, which run files exist, and what each evaluation command line
produces. -/
structure Env where
  configExists : Bool
  fileExists : String → Bool
  evalOut : String → Option String

/-- Outcome of the whole script: `exit1` is the explicit `exit(1)` in the
pre-flight checks (with the subprocess command lines spawned before it,
always none); `crashed` is an uncaught exception (process status 1);
`ok` is falling off the end of `__main__` (process status 0), carrying the
final `failures` flag.  Each constructor records every spawned command
line. -/
inductive MainRes
  | exit1 (spawned : List String)
  | crashed (spawned : List String)
  | ok (failures : Bool) (spawned : List String)
deriving DecidableEq

/-- The process exit status of an outcome. -/
def exitCode : MainRes → Nat
  | MainRes.exit1 _ => 1
  | MainRes.crashed _ => 1
  | MainRes.ok _ _ => 0

/-- The `__main__` block (lines 257-299): load the configuration (absence →
`exit(1)`), check every run file (absence → `exit(1)`), construct the fusion
commands, run or render them, then evaluate and verify. -/
def mainRun (env : Env) (y : Config) (dry use_pyserini : Bool) : MainRes :=
  if env.configExists = false then MainRes.exit1 []
  else if (y.runs.all fun r => env.fileExists r.file) = false then MainRes.exit1 []
  else
    let cmds := construct_fusion_commands y use_pyserini
    if dry then
      -- line 292 joins all tokens of all commands into one logged line
      match joinToks cmds.flatten with
      | none => MainRes.crashed []
      | some _ =>
        match evaluate_and_verify y true env.evalOut with
        | Except.error st => MainRes.crashed st.spawned
        | Except.ok st => MainRes.ok st.failures st.spawned
    else
      match run_fusion_commands cmds with
      | Except.error sp => MainRes.crashed sp
      | Except.ok sp =>
        match evaluate_and_verify y false env.evalOut with
        | Except.error st => MainRes.crashed (sp ++ st.spawned)
        | Except.ok st => MainRes.ok st.failures (sp ++ st.spawned)

/-! ## Concrete fixtures

Small configurations and environments used to evaluate the embedded
program on closed inputs. -/

deriving instance DecidableEq for Except

/-- An `rrf` method with one expected nDCG@10 score. -/
def mRRF : MethodSpec :=
  ⟨some "rrf", some "runs/fused.txt", none, none, none, none, [("nDCG@10", [mkRat 4123 10000])]⟩

/-- An nDCG@10 metric: tab separator, field 2, precision 4. -/
def mtNDCG : MetricSpec := ⟨"nDCG@10", "tools/eval/trec_eval", some "-m ndcg_cut.10", "\t", 2, 4⟩

/-- The same metric with a parse index that is out of range for the
evaluator's output line. -/
def mtBad : MetricSpec := ⟨"nDCG@10", "tools/eval/trec_eval", some "-m ndcg_cut.10", "\t", 5, 4⟩

def tsDL19 : TopicSet := ⟨"dl19", some "qrels.dl19.txt"⟩

/-- One rrf method, one topic set, one metric. -/
def cfgA : Config := ⟨[⟨"runs/a.txt"⟩, ⟨"runs/b.txt"⟩], [mRRF], [tsDL19], [mtNDCG]⟩

/-- As `cfgA` but with the out-of-range parse index. -/
def cfgBad : Config := ⟨[⟨"runs/a.txt"⟩, ⟨"runs/b.txt"⟩], [mRRF], [tsDL19], [mtBad]⟩

/-- The evaluation command line the script renders for `cfgA`. -/
def evalLineA : String :=
  "tools/eval/trec_eval -m ndcg_cut.10 tools/topics-and-qrels/qrels.dl19.txt runs/fused.txt"

/-- The fusion command line the script renders for `cfgA` (backend A). -/
def fuseLineA : String :=
  "bin/run.sh io.anserini.fusion.FuseRuns -runs runs/a.txt runs/b.txt -output runs/fused.txt -method rrf -k 1000 -depth 1000 -rrf_k 60 -alpha 0.5"

/-- World in which everything exists and the evaluator reports 0.4123. -/
def envA : Env :=
  ⟨true, fun _ => true, fun s => if s = evalLineA then some "head\nndcg_cut_10 \tall\t0.4123\n" else none⟩

/-- The verdict the script records for `cfgA` under `envA`. -/
def vA : Verdict := ⟨"rrf", "dl19", "nDCG@10", mkRat 4123 10000, mkRat 4123 10000, true⟩

/-- World in which every evaluation invocation fails. -/
def envNone : Env := ⟨true, fun _ => true, fun _ => none⟩

def trA : Triple := (mRRF, 0, tsDL19, mtNDCG)

/-- An rrf method whose `output` key is missing. -/
def mNoOut : MethodSpec := ⟨some "rrf", none, none, none, none, none, []⟩

def cfg7 : Config := ⟨[⟨"r1.txt"⟩], [mNoOut], [], []⟩

/-- An interpolation method with `alpha = 0.7`. -/
def mInterp07 : MethodSpec :=
  ⟨some "interpolation", some "runs/interp.txt", none, none, none, some (mkRat 7 10), []⟩

def cfg9 : Config := ⟨[⟨"runs/a.txt"⟩, ⟨"runs/b.txt"⟩], [mInterp07], [], []⟩

/-- A `normalize` method with one expected score. -/
def mNorm : MethodSpec :=
  ⟨some "normalize", some "runs/norm.txt", none, none, none, none, [("nDCG@10", [mkRat 7 10])]⟩

def mtEval10 : MetricSpec := ⟨"nDCG@10", "eval", none, "\t", 1, 4⟩

def cfg10 : Config := ⟨[⟨"runs/a.txt"⟩], [mNorm], [⟨"t1", some "q.txt"⟩], [mtEval10]⟩

/-- The evaluation line for `cfg10` (the empty params token leaves a double
space under `' '.join`). -/
def evalLine10 : String := "eval  tools/topics-and-qrels/q.txt runs/norm.txt"

/-- World in which the evaluator reports 0.5 for the normalize output. -/
def env10 : Env := ⟨true, fun _ => true, fun s => if s = evalLine10 then some "x\t0.5\n" else none⟩

/-- The spawned-command-lines component of an outcome. -/
def spawnedOf : MainRes → List String
  | MainRes.exit1 sp => sp
  | MainRes.crashed sp => sp
  | MainRes.ok _ sp => sp

/-! ## Bridge lemmas: the kernel-friendly rational operations agree with the
standard `ℚ` operations -/

theorem qle_iff (a b : ℚ) : qle a b = true ↔ a ≤ b := by
  rw [qle, decide_eq_true_iff, Rat.le_def]

theorem qlt_iff (a b : ℚ) : qlt a b = true ↔ a < b := by
  rw [qlt, decide_eq_true_iff, Rat.lt_def]

theorem qsub_eq (a b : ℚ) : qsub a b = a - b := by
  have ha : ((a.den : ℚ)) ≠ 0 := by exact_mod_cast a.den_nz
  have hb : ((b.den : ℚ)) ≠ 0 := by exact_mod_cast b.den_nz
  rw [qsub, Rat.mkRat_eq_div]
  conv_rhs => rw [← Rat.num_div_den a, ← Rat.num_div_den b]
  rw [div_sub_div _ _ ha hb]
  push_cast
  ring_nf

theorem qmul_eq (a b : ℚ) : qmul a b = a * b := by
  have ha : ((a.den : ℚ)) ≠ 0 := by exact_mod_cast a.den_nz
  have hb : ((b.den : ℚ)) ≠ 0 := by exact_mod_cast b.den_nz
  rw [qmul, Rat.mkRat_eq_div]
  conv_rhs => rw [← Rat.num_div_den a, ← Rat.num_div_den b]
  rw [div_mul_div_comm]
  push_cast
  ring_nf

theorem qabs_eq (a : ℚ) : qabs a = |a| := by
  rw [qabs]
  by_cases h : a.num < 0
  · rw [if_pos h, Rat.mkRat_eq_div]
    have : a < 0 := by rwa [← Rat.num_neg]
    rw [abs_of_neg this]
    conv_rhs => rw [← Rat.num_div_den a]
    push_cast
    ring_nf
  · rw [if_neg h]
    have : 0 ≤ a := by
      rw [← Rat.num_nonneg]
      omega
    rw [abs_of_nonneg this]

theorem qmax_eq (a b : ℚ) : qmax a b = max a b := by
  rw [qmax]
  by_cases h : qle a b = true
  · rw [if_pos h, max_eq_right ((qle_iff a b).mp h)]
  · have : ¬ a ≤ b := fun hc => h ((qle_iff a b).mpr hc)
    rw [if_neg h, max_eq_left (le_of_not_le this)]

theorem mkRat_one_billion : (mkRat 1 1000000000 : ℚ) = 1 / 1000000000 := by
  rw [Rat.mkRat_eq_div]
  norm_num

theorem mkRat_zero_one : (mkRat 0 1 : ℚ) = 0 := by
  rw [Rat.mkRat_eq_div]
  norm_num

theorem is_close_iff (a b rel_tol abs_tol : ℚ) :
    is_close a b rel_tol abs_tol = true ↔ |a - b| ≤ max (rel_tol * max |a| |b|) abs_tol := by
  rw [is_close, qsub_eq, qabs_eq, qmul_eq, qmax_eq, qmax_eq, qabs_eq, qabs_eq, qle_iff]

theorem passes_iff (e a : ℚ) :
    passes e a = true ↔ (|e - a| ≤ (1 / 1000000000) * max |e| |a| ∨ e < a) := by
  rw [passes, Bool.or_eq_true, qlt_iff, is_close_iff, mkRat_one_billion, mkRat_zero_one]
  constructor
  · rintro (h | h)
    · left
      calc |e - a| ≤ max (1 / 1000000000 * max |e| |a|) 0 := h
        _ = 1 / 1000000000 * max |e| |a| := by
            apply max_eq_left
            positivity
    · right; exact h
  · rintro (h | h)
    · left
      rw [max_eq_left (by positivity)]
      exact h
    · right; exact h

/-! ## Structural lemmas about the verification loop -/

/-- A triple that reaches a verdict records the pass rule's value on its
rounded scores. -/
theorem tripleRes_verdict_ok (evalOut : String → Option String) (tr : Triple) (v : Verdict)
    (h : tripleRes evalOut tr = TripleRes.verdict v) :
    v.ok = passes v.expected v.actual := by
  dsimp only [tripleRes] at h
  repeat' split at h
  all_goals cases h
  all_goals rfl

/-- The `failures` flag is exactly "some recorded verdict failed", preserved
through the loop. -/
theorem runTriples_failures_inv (evalOut : String → Option String) (ts : List Triple) :
    ∀ st st', runTriples evalOut false st ts = Except.ok st' →
    st.failures = st.verdicts.any (fun w => !w.ok) →
    st'.failures = st'.verdicts.any (fun w => !w.ok) := by
  induction ts with
  | nil =>
    intro st st' h hinv
    simp only [runTriples] at h
    cases h
    exact hinv
  | cons tr rest ih =>
    intro st st' h hinv
    unfold runTriples at h
    cases hs : stepTriple evalOut false st tr with
    | error st1 => rw [hs] at h; exact absurd h (by simp)
    | ok st1 =>
      rw [hs] at h
      refine ih st1 st' h ?_
      unfold stepTriple at hs
      simp only [Bool.false_eq_true, if_false] at hs
      split at hs
      · cases hs; exact hinv
      · exact absurd hs (by simp)
      · cases hs
        simp only [List.any_append, List.any_cons, List.any_nil, Bool.or_false]
        rw [← hinv]

/-- In dry-run mode the loop spawns nothing, crashes nowhere, and leaves the
state untouched. -/
theorem runTriples_dry (evalOut : String → Option String) (ts : List Triple) :
    ∀ st, runTriples evalOut true st ts = Except.ok st := by
  induction ts with
  | nil => intro st; rfl
  | cons tr rest ih =>
    intro st
    show (match stepTriple evalOut true st tr with
          | Except.error st1 => Except.error st1
          | Except.ok st1 => runTriples evalOut true st1 rest) = _
    rw [show stepTriple evalOut true st tr = Except.ok st from rfl]
    exact ih st

/-- The pre-flight `exit(1)` happens exactly when the configuration file is
missing or some run file is missing. -/
theorem mainRun_exit1_char (env : Env) (y : Config) (dry pys : Bool) :
    (∃ sp, mainRun env y dry pys = MainRes.exit1 sp)
      ↔ (env.configExists = false ∨ (y.runs.all fun r => env.fileExists r.file) = false) := by
  unfold mainRun
  by_cases hc : env.configExists = false
  · rw [if_pos hc]
    exact ⟨fun _ => Or.inl hc, fun _ => ⟨[], rfl⟩⟩
  · rw [if_neg hc]
    by_cases ha : (y.runs.all fun r => env.fileExists r.file) = false
    · rw [if_pos ha]
      exact ⟨fun _ => Or.inr ha, fun _ => ⟨[], rfl⟩⟩
    · rw [if_neg ha]
      constructor
      · rintro ⟨sp, hsp⟩
        exfalso
        revert hsp
        cases dry <;> simp only [if_true, if_false] <;> repeat' split
        all_goals intro hsp; cases hsp
      · rintro (h | h)
        · exact absurd h hc
        · exact absurd h ha

/-! ## Claim theorems -/

/-- C1: for every evaluated (method, topic-set, metric) triple with rounded
scores `expected` and `actual`, the triple is classified PASS exactly when
`is_close(expected, actual)` holds with the default tolerances (relative
1e-9, absolute 0) or `actual > expected`; otherwise it is a FAIL, which sets
the overall failure flag — and the final flag is exactly "some verdict
failed". -/
theorem c1_pass_rule (evalOut : String → Option String) (st st' : EvalState) (tr : Triple)
    (v : Verdict) (h : tripleRes evalOut tr = TripleRes.verdict v)
    (hs : stepTriple evalOut false st tr = Except.ok st') :
    ((v.ok = true) ↔ (is_close v.expected v.actual = true ∨ v.actual > v.expected))
    ∧ st'.failures = (st.failures || !v.ok)
    ∧ st'.verdicts = st.verdicts ++ [v]
    ∧ (∀ ts s0 s1, runTriples evalOut false s0 ts = Except.ok s1 →
        s0.failures = s0.verdicts.any (fun w => !w.ok) →
        s1.failures = s1.verdicts.any (fun w => !w.ok)) := by
  have hok := tripleRes_verdict_ok evalOut tr v h
  unfold stepTriple at hs
  simp only [Bool.false_eq_true, if_false] at hs
  rw [h] at hs
  cases hs
  refine ⟨?_, rfl, rfl, runTriples_failures_inv evalOut⟩
  rw [hok, passes, Bool.or_eq_true, qlt_iff]

/-- C1 witness: the concrete rrf triple of `cfgA` under `envA` reaches a
verdict and the theorem's conclusions hold there. -/
theorem c1_witness :
    (tripleRes envA.evalOut (mRRF, 0, tsDL19, mtNDCG) = TripleRes.verdict vA
      ∧ stepTriple envA.evalOut false ⟨false, [], []⟩ (mRRF, 0, tsDL19, mtNDCG) =
          Except.ok ⟨false, [vA], [evalLineA]⟩)
    ∧ (((vA.ok = true) ↔ (is_close vA.expected vA.actual = true ∨ vA.actual > vA.expected))
        ∧ (⟨false, [vA], [evalLineA]⟩ : EvalState).failures = (false || !vA.ok)
        ∧ (⟨false, [vA], [evalLineA]⟩ : EvalState).verdicts = [] ++ [vA]
        ∧ (∀ ts s0 s1, runTriples envA.evalOut false s0 ts = Except.ok s1 →
            s0.failures = s0.verdicts.any (fun w => !w.ok) →
            s1.failures = s1.verdicts.any (fun w => !w.ok))) :=
  ⟨⟨by decide, by decide⟩,
    c1_pass_rule envA.evalOut ⟨false, [], []⟩ ⟨false, [vA], [evalLineA]⟩
      (mRRF, 0, tsDL19, mtNDCG) vA (by decide) (by decide)⟩

/-- C2: `is_close(a, b, rel_tol, abs_tol)` returns true iff
`|a - b| ≤ max(rel_tol * max(|a|, |b|), abs_tol)`, and its default
parameters are `rel_tol = 1e-9` and `abs_tol = 0` (floats embedded as exact
rationals). -/
theorem c2_is_close_spec (a b rel_tol abs_tol : ℚ) :
    (is_close a b rel_tol abs_tol = true ↔ |a - b| ≤ max (rel_tol * max |a| |b|) abs_tol)
    ∧ is_close a b = is_close a b (1 / 1000000000) 0 := by
  refine ⟨is_close_iff a b rel_tol abs_tol, ?_⟩
  rw [← mkRat_one_billion, ← mkRat_zero_one]

/-- C3 (amended): a failed evaluation invocation, or output with no
non-empty line, is caught: the triple is skipped — no verdict, no failure
flag, only the command line recorded — and the loop continues with the next
triple.  (The claim's further cases — delimiter/index/float parse failures
of the result line — are NOT skipped; they raise uncaught exceptions, see
the counterexample.) -/
theorem c3_skip_rule (evalOut : String → Option String) (tr : Triple) (st : EvalState)
    (h : evalOut (renderEval tr) = none ∨
         ∃ o, evalOut (renderEval tr) = some o ∧ (pySplit o "\n").filter nonBlank = []) :
    tripleRes evalOut tr = TripleRes.skip
    ∧ stepTriple evalOut false st tr =
        Except.ok ⟨st.failures, st.verdicts, st.spawned ++ [renderEval tr]⟩
    ∧ ∀ rest, runTriples evalOut false st (tr :: rest) =
        runTriples evalOut false ⟨st.failures, st.verdicts, st.spawned ++ [renderEval tr]⟩ rest := by
  have hskip : tripleRes evalOut tr = TripleRes.skip := by
    rcases h with h | ⟨o, ho, hf⟩
    · unfold tripleRes
      rw [h]
    · unfold tripleRes
      rw [ho]
      dsimp only
      rw [hf]
      rfl
  have hstep : stepTriple evalOut false st tr =
      Except.ok ⟨st.failures, st.verdicts, st.spawned ++ [renderEval tr]⟩ := by
    unfold stepTriple
    simp only [Bool.false_eq_true, if_false]
    rw [hskip]
  refine ⟨hskip, hstep, ?_⟩
  intro rest
  show (match stepTriple evalOut false st tr with
        | Except.error st1 => Except.error st1
        | Except.ok st1 => runTriples evalOut false st1 rest) = _
  rw [hstep]

/-- C3 witness: under `envNone` the invocation fails and the concrete triple
is skipped with the loop state otherwise unchanged. -/
theorem c3_witness :
    (envNone.evalOut (renderEval trA) = none)
    ∧ tripleRes envNone.evalOut trA = TripleRes.skip
    ∧ stepTriple envNone.evalOut false ⟨false, [], []⟩ trA
        = Except.ok ⟨false, [], [renderEval trA]⟩ :=
  ⟨rfl, (c3_skip_rule envNone.evalOut trA ⟨false, [], []⟩ (Or.inl rfl)).1,
    (c3_skip_rule envNone.evalOut trA ⟨false, [], []⟩ (Or.inl rfl)).2.1⟩

/-- C3 counterexample: with separator `\t` and parse index 5 the result-line
field selection fails, and instead of being skipped the triple crashes the
loop — the second triple is never processed (no verdicts, only the first
command line spawned, `Except.error`). -/
theorem c3_counterexample :
    tripleRes envA.evalOut (mRRF, 0, tsDL19, mtBad) = TripleRes.crash
    ∧ runTriples envA.evalOut false ⟨false, [], []⟩
        [(mRRF, 0, tsDL19, mtBad), (mRRF, 0, tsDL19, mtNDCG)]
      = Except.error ⟨false, [], [evalLineA]⟩ := by decide

/-- C4: for every configuration and both backends, the command builder
filters methods by the set `{rrf, average, interpolation}` (written out
literally), emits exactly one command per surviving method, preserves the
full run-file list and the method's output path in each command, and emits
no command at all for a method named `normalize`. -/
theorem c4_builder (y : Config) (pys : Bool) :
    (filteredMethods supportedMethodsBuild y
      = y.methods.filter (fun m =>
          decide (m.name = some "rrf" ∨ m.name = some "average" ∨ m.name = some "interpolation")))
    ∧ construct_fusion_commands y pys = (filteredMethods supportedMethodsBuild y).map (mkFusionCmd y pys)
    ∧ (construct_fusion_commands y pys).length = (filteredMethods supportedMethodsBuild y).length
    ∧ (∀ m ∈ filteredMethods supportedMethodsBuild y,
        (∀ r ∈ y.runs, some r.file ∈ mkFusionCmd y true m)
        ∧ some (String.intercalate " " (y.runs.map RunRef.file)) ∈ mkFusionCmd y false m
        ∧ m.output ∈ mkFusionCmd y true m
        ∧ m.output ∈ mkFusionCmd y false m)
    ∧ (∀ m ∈ y.methods, m.name = some "normalize" → m ∉ filteredMethods supportedMethodsBuild y) := by
  refine ⟨?_, rfl, by simp [construct_fusion_commands], ?_, ?_⟩
  · apply List.filter_congr
    intro m _
    cases hn : m.name with
    | none => simp
    | some n => simp [supportedMethodsBuild]
  · intro m hm
    refine ⟨?_, ?_, ?_, ?_⟩
    · intro r hr
      simp [mkFusionCmd]
      exact Or.inr (Or.inr (Or.inr (Or.inr (Or.inl ⟨r, hr, rfl⟩))))
    · simp [mkFusionCmd]
    · simp only [mkFusionCmd, if_true, List.mem_append, List.mem_cons]
      left; right
      simp
    · simp [mkFusionCmd]
  · intro m _ hname
    simp [filteredMethods, List.mem_filter, hname, supportedMethodsBuild]

/-- C4 witness: the containment conclusions at the concrete `cfgA` and its
rrf method. -/
theorem c4_witness :
    (mRRF ∈ filteredMethods supportedMethodsBuild cfgA)
    ∧ ((∀ r ∈ cfgA.runs, some r.file ∈ mkFusionCmd cfgA true mRRF)
        ∧ some (String.intercalate " " (cfgA.runs.map RunRef.file)) ∈ mkFusionCmd cfgA false mRRF
        ∧ mRRF.output ∈ mkFusionCmd cfgA true mRRF
        ∧ mRRF.output ∈ mkFusionCmd cfgA false mRRF) :=
  ⟨by decide, (c4_builder cfgA true).2.2.2.1 mRRF (by decide)⟩

/-- C5: for every supported method, the backend-A (Anserini) command always
carries all four parameter flags `-k`, `-depth`, `-rrf_k`, `-alpha` with
defaults 1000, 1000, 60, 0.5 when the configuration omits them, while the
backend-B (Pyserini) command carries `--rrf.k` only for rrf and `--alpha`
only for interpolation, and always a `--runtag` flag whose value is the
backend name joined to the method name with a dot. -/
theorem c5_backend_params (y : Config) (m : MethodSpec)
    (hm : m ∈ filteredMethods supportedMethodsBuild y) :
    mkFusionCmd y false m
      = [some ANSERINI_FUSE_COMMAND,
         some "-runs", some (String.intercalate " " (y.runs.map RunRef.file)),
         some "-output", m.output,
         some "-method", some (m.name.getD "average"),
         some "-k", some (toString (m.k.getD 1000)),
         some "-depth", some (toString (m.depth.getD 1000)),
         some "-rrf_k", some (toString (m.rrf_k.getD 60)),
         some "-alpha", some (decStr (m.alpha.getD (mkRat 1 2)))]
    ∧ mkFusionCmd y true m
      = ([some PYSERINI_FUSE_COMMAND,
          some "--method", some (m.name.getD "average"),
          some "--runs"] ++ (y.runs.map RunRef.file).map some ++
         [some "--output", m.output,
          some "--runtag", some ("pyserini." ++ m.name.getD "average"),
          some "--k", some (toString (m.k.getD 1000)),
          some "--depth", some (toString (m.depth.getD 1000))]) ++
        (if m.name.getD "average" = "rrf" then
          [some "--rrf.k", some (toString (m.rrf_k.getD 60))]
        else if m.name.getD "average" = "interpolation" then
          [some "--alpha", some (decStr (m.alpha.getD (mkRat 1 2)))]
        else [])
    ∧ (∃ p q, mkFusionCmd y true m
        = p ++ [some "--runtag", some ("pyserini." ++ m.name.getD "average")] ++ q) := by
  have hname : ∃ n, m.name = some n ∧ (n = "rrf" ∨ n = "average" ∨ n = "interpolation") := by
    rw [filteredMethods, List.mem_filter] at hm
    rcases hn : m.name with _ | n
    · rw [hn] at hm
      exact absurd hm.2 (by simp)
    · rw [hn] at hm
      refine ⟨n, rfl, ?_⟩
      have := hm.2
      simp [supportedMethodsBuild] at this
      tauto
  obtain ⟨n, hn, hcases⟩ := hname
  refine ⟨rfl, ?_, ?_⟩
  · rcases hcases with h | h | h <;> subst h <;> simp [mkFusionCmd, hn]
  · refine ⟨[some PYSERINI_FUSE_COMMAND, some "--method", some (m.name.getD "average"),
      some "--runs"] ++ (y.runs.map RunRef.file).map some ++ [some "--output", m.output],
      [some "--k", some (toString (m.k.getD 1000)),
       some "--depth", some (toString (m.depth.getD 1000))] ++
      (if m.name.getD "average" = "rrf" then
        [some "--rrf.k", some (toString (m.rrf_k.getD 60))]
      else if m.name.getD "average" = "interpolation" then
        [some "--alpha", some (decStr (m.alpha.getD (mkRat 1 2)))]
      else if m.name.getD "average" = "normalize" then []
      else []), ?_⟩
    rcases hcases with h | h | h <;> subst h <;> simp [mkFusionCmd, hn]

/-- C5 witness: the backend-A command layout at the concrete `cfgA`. -/
theorem c5_witness :
    (mRRF ∈ filteredMethods supportedMethodsBuild cfgA)
    ∧ mkFusionCmd cfgA false mRRF
      = [some ANSERINI_FUSE_COMMAND,
         some "-runs", some (String.intercalate " " (cfgA.runs.map RunRef.file)),
         some "-output", mRRF.output,
         some "-method", some (mRRF.name.getD "average"),
         some "-k", some (toString (mRRF.k.getD 1000)),
         some "-depth", some (toString (mRRF.depth.getD 1000)),
         some "-rrf_k", some (toString (mRRF.rrf_k.getD 60)),
         some "-alpha", some (decStr (mRRF.alpha.getD (mkRat 1 2)))] :=
  ⟨by decide, (c5_backend_params cfgA mRRF (by decide)).1⟩

/-- C6 (amended): the process exits with status 1 before any fusion or
evaluation command exactly when the configuration file is missing or some
configured run file is missing (the early exit spawns nothing); in every
other run that completes the evaluation phase without an uncaught exception
it exits with status 0, and metric FAIL verdicts never change the exit
status. -/
theorem c6_exit_behavior (env : Env) (y : Config) (dry pys : Bool) :
    ((∃ sp, mainRun env y dry pys = MainRes.exit1 sp)
      ↔ (env.configExists = false ∨ ∃ r ∈ y.runs, env.fileExists r.file = false))
    ∧ (∀ sp, mainRun env y dry pys = MainRes.exit1 sp → sp = [])
    ∧ (∀ f sp, mainRun env y dry pys = MainRes.ok f sp → exitCode (mainRun env y dry pys) = 0) := by
  have hall : ((y.runs.all fun r => env.fileExists r.file) = false)
      ↔ (∃ r ∈ y.runs, env.fileExists r.file = false) := by
    rw [← Bool.not_eq_true, List.all_eq_true]
    push_neg
    constructor
    · rintro ⟨r, hr, h⟩
      exact ⟨r, hr, by simpa using h⟩
    · rintro ⟨r, hr, h⟩
      exact ⟨r, hr, by simp [h]⟩
  refine ⟨(mainRun_exit1_char env y dry pys).trans (or_congr Iff.rfl hall), ?_, ?_⟩
  · intro sp h
    unfold mainRun at h
    by_cases hc : env.configExists = false
    · rw [if_pos hc] at h
      cases h
      rfl
    · rw [if_neg hc] at h
      by_cases ha : (y.runs.all fun r => env.fileExists r.file) = false
      · rw [if_pos ha] at h
        cases h
        rfl
      · rw [if_neg ha] at h
        exfalso
        revert h
        cases dry <;> simp only [if_true, if_false] <;> repeat' split
        all_goals intro h; cases h
  · intro f sp h
    rw [h]
    rfl

/-- C6 witness: a complete concrete run (config present, run files present)
finishes with exit status 0. -/
theorem c6_witness :
    (mainRun envA cfgA false false = MainRes.ok false [fuseLineA, evalLineA])
    ∧ exitCode (mainRun envA cfgA false false) = 0 :=
  ⟨by decide, (c6_exit_behavior envA cfgA false false).2.2 false [fuseLineA, evalLineA] (by decide)⟩

/-- C6 counterexample: with configuration and run files present, an
out-of-range parse index makes the evaluation phase raise an uncaught
exception after the fusion command ran, so the process exit status is 1,
not 0, refuting "in every other run it exits with status 0". -/
theorem c6_counterexample :
    envA.configExists = true
    ∧ (cfgBad.runs.all fun r => envA.fileExists r.file) = true
    ∧ mainRun envA cfgBad false false = MainRes.crashed [fuseLineA, evalLineA]
    ∧ exitCode (mainRun envA cfgBad false false) ≠ 0 := by decide

/-- C7 (amended): the command builder is a pure total transform over the
parsed configuration — it emits exactly one command per supported method and
never fails on a missing method-level key: a missing `output` key is
silently passed through as the null token in the output-flag position, and
missing numeric parameters silently receive the defaults `k = 1000`,
`depth = 1000`, `rrf_k = 60`, `alpha = 0.5` (no fail-fast, no descriptive
error). -/
theorem c7_silent_defaults (y : Config) (pys : Bool) (m : MethodSpec)
    (hm : m ∈ filteredMethods supportedMethodsBuild y) :
    (construct_fusion_commands y pys).length = (filteredMethods supportedMethodsBuild y).length
    ∧ (m.output = none → (none : Tok) ∈ mkFusionCmd y pys m)
    ∧ (m.k = none → some "1000" ∈ mkFusionCmd y pys m)
    ∧ (m.depth = none → some "1000" ∈ mkFusionCmd y pys m)
    ∧ (m.rrf_k = none → some "60" ∈ mkFusionCmd y false m)
    ∧ (m.alpha = none → some "0.5" ∈ mkFusionCmd y false m) := by
  refine ⟨by simp [construct_fusion_commands], ?_, ?_, ?_, ?_, ?_⟩
  · intro h
    cases pys <;> simp [mkFusionCmd, h]
  · intro h
    have hv : "1000" = toString (1000 : Int) := by decide
    cases pys <;> simp [mkFusionCmd, h] <;> tauto
  · intro h
    have hv : "1000" = toString (1000 : Int) := by decide
    cases pys <;> simp [mkFusionCmd, h] <;> tauto
  · intro h
    have hv : "60" = toString (60 : Int) := by decide
    simp [mkFusionCmd, h]
    tauto
  · intro h
    have hv : "0.5" = decStr (mkRat 1 2) := by decide
    simp [mkFusionCmd, h]
    tauto

/-- C7 witness: the silent-default conclusions at the concrete method with
the missing output key. -/
theorem c7_witness :
    (mNoOut ∈ filteredMethods supportedMethodsBuild cfg7)
    ∧ (mNoOut.output = none → (none : Tok) ∈ mkFusionCmd cfg7 false mNoOut)
    ∧ (mNoOut.alpha = none → some "0.5" ∈ mkFusionCmd cfg7 false mNoOut) :=
  ⟨by decide, (c7_silent_defaults cfg7 false mNoOut (by decide)).2.1,
    (c7_silent_defaults cfg7 false mNoOut (by decide)).2.2.2.2.2⟩

/-- C7 counterexample: a method whose `output` key is missing is not
rejected with an error — the builder silently emits a command whose
output-flag value is the null token (which only later breaks the join),
with all numeric defaults silently substituted. -/
theorem c7_counterexample :
    construct_fusion_commands cfg7 false
      = [[some ANSERINI_FUSE_COMMAND, some "-runs", some "r1.txt", some "-output", none,
          some "-method", some "rrf", some "-k", some "1000", some "-depth", some "1000",
          some "-rrf_k", some "60", some "-alpha", some "0.5"]]
    ∧ joinToks (mkFusionCmd cfg7 false mNoOut) = none := by decide

/-- C8: the pass rule is monotonic in the actual score — if
(expected, actual) passes under `is_close(expected, actual) or
actual > expected` with default tolerances, then so does every larger
actual. -/
theorem c8_monotonic (e a b : ℚ) (hp : passes e a = true) (hab : a < b) :
    passes e b = true := by
  rw [passes_iff] at hp ⊢
  rcases hp with habs | hlt
  · by_cases hbe : e < b
    · exact Or.inr hbe
    · push_neg at hbe
      have hae : a < e := lt_of_lt_of_le hab hbe
      left
      rw [abs_of_nonneg (by linarith : (0:ℚ) ≤ e - a)] at habs
      rw [abs_of_nonneg (by linarith : (0:ℚ) ≤ e - b)]
      rcases le_or_lt 0 e with he | he
      · rcases le_or_lt 0 a with ha | ha
        · have hb0 : 0 ≤ b := le_of_lt (lt_of_le_of_lt ha hab)
          rw [abs_of_nonneg he, abs_of_nonneg ha] at habs
          rw [abs_of_nonneg he, abs_of_nonneg hb0]
          rw [max_eq_left (le_of_lt hae)] at habs
          rw [max_eq_left hbe]
          linarith
        · exfalso
          rw [abs_of_nonneg he, abs_of_neg ha] at habs
          have hM : max e (-a) ≤ e - a := by
            apply max_le <;> linarith
          have : (1 / 1000000000 : ℚ) * max e (-a) ≤ (1 / 1000000000 : ℚ) * (e - a) :=
            mul_le_mul_of_nonneg_left hM (by norm_num)
          linarith
      · have hb0 : b < 0 := lt_of_le_of_lt hbe he
        have ha0 : a < 0 := lt_trans hab hb0
        rw [abs_of_neg he, abs_of_neg ha0] at habs
        rw [abs_of_neg he, abs_of_neg hb0]
        rw [max_eq_right (by linarith : -e ≤ -a)] at habs
        rw [max_eq_right (by linarith : -e ≤ -b)]
        linarith
  · exact Or.inr (lt_trans hlt hab)

/-- C8 witness: (0, 0) passes and 0 < 1, so (0, 1) passes. -/
theorem c8_witness :
    (passes (mkRat 0 1) (mkRat 0 1) = true ∧ mkRat 0 1 < mkRat 1 1)
    ∧ passes (mkRat 0 1) (mkRat 1 1) = true :=
  ⟨⟨by decide, by decide⟩, c8_monotonic (mkRat 0 1) (mkRat 0 1) (mkRat 1 1) (by decide) (by decide)⟩

/-- C9: in dry-run mode no subprocess is ever spawned, for fusion or for
evaluation commands; and for backend B with an interpolation method having
`alpha = 0.7` the rendered command carries the tokens `--alpha 0.7`. -/
theorem c9_dry_run (env : Env) (y : Config) (pys : Bool) :
    spawnedOf (mainRun env y true pys) = []
    ∧ mkFusionCmd cfg9 true mInterp07
      = [some PYSERINI_FUSE_COMMAND, some "--method", some "interpolation", some "--runs",
         some "runs/a.txt", some "runs/b.txt", some "--output", some "runs/interp.txt",
         some "--runtag", some "pyserini.interpolation", some "--k", some "1000",
         some "--depth", some "1000", some "--alpha", some "0.7"] := by
  refine ⟨?_, by decide⟩
  unfold mainRun
  by_cases hc : env.configExists = false
  · simp [hc, spawnedOf]
  · simp only [hc, if_false]
    by_cases ha : (y.runs.all fun r => env.fileExists r.file) = false
    · simp [ha, spawnedOf]
    · simp only [ha, if_false, if_true]
      cases hj : joinToks (construct_fusion_commands y pys).flatten with
      | none => simp [hj, spawnedOf]
      | some s =>
        simp only [hj]
        rw [show evaluate_and_verify y true env.evalOut
              = Except.ok ⟨false, [], []⟩ from runTriples_dry env.evalOut (triples y) _]
        simp [spawnedOf]

/-- C10: the evaluation phase filters with
`{rrf, average, interpolation, normalize}`, a strict superset of the
construction set `{rrf, average, interpolation}` — so a configured
`normalize` method has all its triples evaluated (and can produce FAIL
verdicts) although no fusion command is ever constructed for it. -/
theorem c10_normalize_gap :
    (∀ (y : Config) (m : MethodSpec), m ∈ y.methods → m.name = some "normalize" →
      m ∉ filteredMethods supportedMethodsBuild y ∧ m ∈ filteredMethods supportedMethodsEval y)
    ∧ supportedMethodsEval = supportedMethodsBuild ++ ["normalize"]
    ∧ construct_fusion_commands cfg10 false = []
    ∧ construct_fusion_commands cfg10 true = []
    ∧ evaluate_and_verify cfg10 false env10.evalOut
        = Except.ok ⟨true, [⟨"normalize", "t1", "nDCG@10", mkRat 7 10, mkRat 1 2, false⟩],
            [evalLine10]⟩ := by
  refine ⟨?_, rfl, by decide, by decide, by decide⟩
  intro y m hm hname
  constructor
  · simp [filteredMethods, List.mem_filter, hname, supportedMethodsBuild]
  · simp [filteredMethods, List.mem_filter, hname, supportedMethodsEval, hm]

/-- C10 witness: the concrete normalize method is excluded from command
construction yet included in evaluation. -/
theorem c10_witness :
    (mNorm ∈ cfg10.methods ∧ mNorm.name = some "normalize")
    ∧ (mNorm ∉ filteredMethods supportedMethodsBuild cfg10
        ∧ mNorm ∈ filteredMethods supportedMethodsEval cfg10) :=
  ⟨⟨by decide, rfl⟩, c10_normalize_gap.1 cfg10 mNorm (by decide) rfl⟩
